import Mathlib

/-!
Verification of the OpenSSL DSA backend module
(`cryptography/hazmat/backends/openssl/dsa.py`).

The module is embedded shallowly:

* OpenSSL big numbers (`BIGNUM*`) live in an explicit heap `BNHeap`
  mapping addresses to natural-number values; `BN_dup` allocates a fresh
  cell holding a copy of the value, `BN_num_bits` is the bit length of
  the stored value.
* A `DSA*` C structure is a `DSA_cdata` record of bignum addresses plus
  an identity (the pointer value) used to track `ffi.gc` finalizer
  registrations; the registrations are part of the `World` state.
* The external collaborators (the hashing abstraction and the raw
  provider primitives `DSA_sign` / `DSA_verify` / `DSA_size`, together
  with the OpenSSL error queue) are not part of the source file; they
  are modelled from the spec as explicit parameters (`HashAlgorithm`,
  `Provider`).
* Python `assert` statements become explicit `assertionFailure`
  outcomes; `raise InvalidSignature` becomes the `invalidSignature`
  outcome.
-/

namespace DSA

/-- A byte string, as a list of byte values. -/
abbrev Bytes := List Nat

/-! ## Big-number heap -/

/-- The heap of OpenSSL big numbers: a store from addresses to values and
the next fresh address. -/
structure BNHeap where
  store : Nat → Nat
  next : Nat

/-- Allocate a fresh bignum cell holding value `v`, returning the new heap
and the address of the cell. -/
def BNHeap.alloc (h : BNHeap) (v : Nat) : BNHeap × Nat :=
  (⟨fun a => if a = h.next then v else h.store a, h.next + 1⟩, h.next)

/-- Overwrite the bignum cell at address `a` with value `v` (models
mutation of a big number through its pointer). -/
def BNHeap.set (h : BNHeap) (a v : Nat) : BNHeap :=
  ⟨fun x => if x = a then v else h.store x, h.next⟩

/-- Fuelled helper for the bit length of a natural number; structural in
the fuel so that it evaluates by kernel reduction. -/
def bitLenAux : Nat → Nat → Nat
  | 0, _ => 0
  | fuel + 1, n => if n = 0 then 0 else bitLenAux fuel (n / 2) + 1

/-- The bit length of a natural number (`bitLen 0 = 0`, and
`bitLen n = log2 n + 1` for positive `n`); proved equal to `Nat.size`
below. -/
def bitLen (n : Nat) : Nat :=
  bitLenAux n n

/-- `BN_num_bits`: the bit length of the big number stored at address
`a`, matching OpenSSL (`BN_num_bits(0) = 0`). -/
def BN_num_bits (h : BNHeap) (a : Nat) : Nat :=
  bitLen (h.store a)

/-- `BN_dup`: allocate a fresh big number holding a copy of the value at
address `a`. -/
def BN_dup (h : BNHeap) (a : Nat) : BNHeap × Nat :=
  h.alloc (h.store a)

/-! ## DSA structures and the world state -/

/-- The `DSA*` C structure: an identity (the pointer) and the addresses
of its bignum fields. Structures holding only parameters or a public key
leave the unused fields at the null address they were built with. -/
structure DSA_cdata where
  id : Nat
  p : Nat
  q : Nat
  g : Nat
  pub_key : Nat
  priv_key : Nat
deriving DecidableEq

/-- The mutable state visible to the module: the bignum heap, the next
fresh `DSA*` identity, and the multiset (as a list) of `DSA*` identities
on which an `ffi.gc(…, DSA_free)` finalizer has been registered. -/
structure World where
  heap : BNHeap
  nextId : Nat
  finalizers : List Nat

/-- `DSA_new`: allocate a fresh `DSA*` identity. -/
def DSA_new (w : World) : World × Nat :=
  (⟨w.heap, w.nextId + 1, w.finalizers⟩, w.nextId)

/-- `ffi.gc(cdata, DSA_free)`: register a `DSA_free` finalizer for the
structure with identity `i`. -/
def ffi_gc (w : World) (i : Nat) : World :=
  ⟨w.heap, w.nextId, i :: w.finalizers⟩

/-- Read the integer value of the big number at address `a`
(`backend._bn_to_int`). -/
def bn_to_int (w : World) (a : Nat) : Nat :=
  w.heap.store a

/-- Mutate the big number at address `a` (models writing through one of
the pointers owned by a structure). -/
def World.setBN (w : World) (a v : Nat) : World :=
  ⟨w.heap.set a v, w.nextId, w.finalizers⟩

/-! ## Digest truncation -/

/-- Modelled from the spec: `_truncate_digest` from
`cryptography.hazmat.backends.openssl.utils`, which is imported by the
source file but whose definition is not among the sources. Per the spec:
if the digest bit length (8 times the byte length) is greater than
`order_bits`, keep the leading `ceil(order_bits / 8)` bytes; otherwise
return the digest unchanged. -/
def _truncate_digest (digest : Bytes) (order_bits : Nat) : Bytes :=
  if 8 * digest.length > order_bits then
    digest.take ((order_bits + 7) / 8)
  else
    digest

/-- `_truncate_digest_for_dsa`: truncate `digest` to the bit length of
the order `q` of the given DSA structure. -/
def _truncate_digest_for_dsa (h : BNHeap) (dsa_cdata : DSA_cdata) (digest : Bytes) : Bytes :=
  _truncate_digest digest (BN_num_bits h dsa_cdata.q)

/-! ## Numbers objects (`dsa.DSAParameterNumbers` etc.) -/

/-- `dsa.DSAParameterNumbers`: the plain integer values (p, q, g). -/
structure DSAParameterNumbers where
  p : Nat
  q : Nat
  g : Nat
deriving DecidableEq

/-- `dsa.DSAPublicNumbers`: parameter numbers plus the public value y. -/
structure DSAPublicNumbers where
  parameter_numbers : DSAParameterNumbers
  y : Nat
deriving DecidableEq

/-- `dsa.DSAPrivateNumbers`: public numbers plus the private exponent x. -/
structure DSAPrivateNumbers where
  public_numbers : DSAPublicNumbers
  x : Nat
deriving DecidableEq

/-! ## External collaborators, modelled from the spec -/

/-- Modelled from the spec: the external hashing abstraction
(`cryptography.hazmat.primitives.hashes`, not among the sources). A named
hash algorithm is its digest function on the accumulated bytes. -/
structure HashAlgorithm where
  digest : Bytes → Bytes

/-- Modelled from the spec: `hashes.Hash`, a digest accumulator
supporting incremental update and a final digest computation. -/
structure Hash where
  _algorithm : HashAlgorithm
  data : Bytes

/-- `hashes.Hash(algorithm, backend)`: a fresh accumulator. -/
def Hash.init (algorithm : HashAlgorithm) : Hash :=
  ⟨algorithm, []⟩

/-- `Hash.update`: append bytes to the accumulator. -/
def Hash.update (h : Hash) (data : Bytes) : Hash :=
  ⟨h._algorithm, h.data ++ data⟩

/-- `Hash.finalize`: the digest of all accumulated bytes. -/
def Hash.finalize (h : Hash) : Bytes :=
  h._algorithm.digest h.data

/-- An entry of the OpenSSL error queue, as seen through
`backend._consume_errors()`; only the `lib` field is consulted here. -/
structure OpenSSLError where
  lib : Nat
deriving DecidableEq

/-- The field values of a full (private) DSA structure, as the provider
reads them through the bignum pointers. -/
structure DSAValues where
  p : Nat
  q : Nat
  g : Nat
  pub_key : Nat
  priv_key : Nat
deriving DecidableEq

/-- The field values of a public DSA structure (no private exponent). -/
structure DSAPublicValues where
  p : Nat
  q : Nat
  g : Nat
  pub_key : Nat
deriving DecidableEq

/-- Read the public field values of a DSA structure from the heap. -/
def readPub (w : World) (cd : DSA_cdata) : DSAPublicValues :=
  ⟨bn_to_int w cd.p, bn_to_int w cd.q, bn_to_int w cd.g, bn_to_int w cd.pub_key⟩

/-- Read the full field values of a DSA structure from the heap. -/
def readPriv (w : World) (cd : DSA_cdata) : DSAValues :=
  ⟨bn_to_int w cd.p, bn_to_int w cd.q, bn_to_int w cd.g, bn_to_int w cd.pub_key,
    bn_to_int w cd.priv_key⟩

/-- Modelled from the spec: the raw primitives of the external
cryptographic provider (OpenSSL, consumed as a black box; its code is
not among the sources). `DSA_sign` returns the result code and the bytes
it wrote into the caller-supplied buffer (their count is what the
provider stores into `buflen`); `DSA_verify` returns the result code
(1 success, 0 mismatch, -1 parse failure) together with the error-queue
contents that `_consume_errors` drains afterwards. -/
structure Provider where
  ERR_LIB_ASN1 : Nat
  DSA_size : DSAValues → Nat
  DSA_sign : Bytes → DSAValues → Int × Bytes
  DSA_verify : Bytes → Bytes → DSAPublicValues → Int × List OpenSSLError

/-! ## Key and parameter objects -/

/-- `_DSAParameters`: owns a DSA structure holding (p, q, g). -/
structure _DSAParameters where
  _dsa_cdata : DSA_cdata

/-- `_DSAPrivateKey`: owns a DSA structure holding (p, q, g, y, x) and
caches the bit length of p at construction. -/
structure _DSAPrivateKey where
  _dsa_cdata : DSA_cdata
  _key_size : Nat

/-- `_DSAPublicKey`: owns a DSA structure holding (p, q, g, y) and
caches the bit length of p at construction. -/
structure _DSAPublicKey where
  _dsa_cdata : DSA_cdata
  _key_size : Nat

/-- `_DSAPrivateKey.__init__`: store the structure and compute
`key_size = BN_num_bits(p)`. -/
def _DSAPrivateKey.init (w : World) (dsa_cdata : DSA_cdata) : _DSAPrivateKey :=
  ⟨dsa_cdata, BN_num_bits w.heap dsa_cdata.p⟩

/-- `_DSAPublicKey.__init__`: store the structure and compute
`key_size = BN_num_bits(p)`. -/
def _DSAPublicKey.init (w : World) (dsa_cdata : DSA_cdata) : _DSAPublicKey :=
  ⟨dsa_cdata, BN_num_bits w.heap dsa_cdata.p⟩

/-- The `key_size` getter of a private key. -/
def _DSAPrivateKey.key_size (k : _DSAPrivateKey) : Nat := k._key_size

/-- The `key_size` getter of a public key. -/
def _DSAPublicKey.key_size (k : _DSAPublicKey) : Nat := k._key_size

/-- Result of an attribute assignment attempt. -/
inductive SetAttr
  | attributeError
deriving DecidableEq

/-- Modelled from the spec: `utils.read_only_property` (not among the
sources) exposes `_key_size` through a getter with no setter, so
assigning to `key_size` on a private key raises `AttributeError`. -/
def _DSAPrivateKey.set_key_size (_ : _DSAPrivateKey) (_ : Nat) : SetAttr :=
  .attributeError

/-- Modelled from the spec: assigning to `key_size` on a public key
raises `AttributeError` (read-only property). -/
def _DSAPublicKey.set_key_size (_ : _DSAPublicKey) (_ : Nat) : SetAttr :=
  .attributeError

/-- `_DSAParameters.parameter_numbers`: read (p, q, g) out of the heap. -/
def _DSAParameters.parameter_numbers (w : World) (ps : _DSAParameters) : DSAParameterNumbers :=
  ⟨bn_to_int w ps._dsa_cdata.p, bn_to_int w ps._dsa_cdata.q, bn_to_int w ps._dsa_cdata.g⟩

/-- `_DSAPrivateKey.private_numbers`: read (p, q, g, y, x) out of the
heap into nested numbers objects. -/
def _DSAPrivateKey.private_numbers (w : World) (k : _DSAPrivateKey) : DSAPrivateNumbers :=
  ⟨⟨⟨bn_to_int w k._dsa_cdata.p, bn_to_int w k._dsa_cdata.q, bn_to_int w k._dsa_cdata.g⟩,
      bn_to_int w k._dsa_cdata.pub_key⟩,
    bn_to_int w k._dsa_cdata.priv_key⟩

/-- `_DSAPublicKey.public_numbers`: read (p, q, g, y) out of the heap. -/
def _DSAPublicKey.public_numbers (w : World) (k : _DSAPublicKey) : DSAPublicNumbers :=
  ⟨⟨bn_to_int w k._dsa_cdata.p, bn_to_int w k._dsa_cdata.q, bn_to_int w k._dsa_cdata.g⟩,
    bn_to_int w k._dsa_cdata.pub_key⟩

/-- `_DSAPrivateKey.public_key`: `DSA_new` a fresh structure, register a
`DSA_free` finalizer on it, `BN_dup` (p, q, g, pub_key) into it, and
wrap it as a `_DSAPublicKey` (its `priv_key` pointer stays NULL). -/
def _DSAPrivateKey.public_key (w : World) (k : _DSAPrivateKey) : World × _DSAPublicKey :=
  let a := DSA_new w
  let w2 := ffi_gc a.1 a.2
  let bp := BN_dup w2.heap k._dsa_cdata.p
  let bq := BN_dup bp.1 k._dsa_cdata.q
  let bg := BN_dup bq.1 k._dsa_cdata.g
  let by_ := BN_dup bg.1 k._dsa_cdata.pub_key
  let w3 : World := ⟨by_.1, w2.nextId, w2.finalizers⟩
  (w3, _DSAPublicKey.init w3 ⟨a.2, bp.2, bq.2, bg.2, by_.2, 0⟩)

/-- `_DSAPrivateKey.parameters`: `DSA_new` a fresh structure, register a
`DSA_free` finalizer on it, `BN_dup` (p, q, g) into it. -/
def _DSAPrivateKey.parameters (w : World) (k : _DSAPrivateKey) : World × _DSAParameters :=
  let a := DSA_new w
  let w2 := ffi_gc a.1 a.2
  let bp := BN_dup w2.heap k._dsa_cdata.p
  let bq := BN_dup bp.1 k._dsa_cdata.q
  let bg := BN_dup bq.1 k._dsa_cdata.g
  (⟨bg.1, w2.nextId, w2.finalizers⟩, ⟨⟨a.2, bp.2, bq.2, bg.2, 0, 0⟩⟩)

/-- `_DSAPublicKey.parameters`: same duplication as on the private key. -/
def _DSAPublicKey.parameters (w : World) (k : _DSAPublicKey) : World × _DSAParameters :=
  let a := DSA_new w
  let w2 := ffi_gc a.1 a.2
  let bp := BN_dup w2.heap k._dsa_cdata.p
  let bq := BN_dup bp.1 k._dsa_cdata.q
  let bg := BN_dup bq.1 k._dsa_cdata.g
  (⟨bg.1, w2.nextId, w2.finalizers⟩, ⟨⟨a.2, bp.2, bq.2, bg.2, 0, 0⟩⟩)

/-! ## Contexts -/

/-- Outcome of `_DSAVerificationContext.verify`: normal return, a raised
`InvalidSignature`, or a failed `assert`. -/
inductive VerifyOutcome
  | ok
  | invalidSignature
  | assertionFailure
deriving DecidableEq

/-- Outcome of `_DSASignatureContext.finalize`: the returned signature
bytes or a failed `assert`. -/
inductive SignOutcome
  | ok (signature : Bytes)
  | assertionFailure
deriving DecidableEq

/-- `_DSAVerificationContext`: the bound public key, claimed signature,
algorithm, and the running hash accumulator. -/
structure _DSAVerificationContext where
  _public_key : _DSAPublicKey
  _signature : Bytes
  _algorithm : HashAlgorithm
  _hash_ctx : Hash

/-- `_DSAVerificationContext.__init__`. -/
def _DSAVerificationContext.init (public_key : _DSAPublicKey) (signature : Bytes)
    (algorithm : HashAlgorithm) : _DSAVerificationContext :=
  ⟨public_key, signature, algorithm, Hash.init algorithm⟩

/-- `_DSAVerificationContext.update`. -/
def _DSAVerificationContext.update (c : _DSAVerificationContext) (data : Bytes) :
    _DSAVerificationContext :=
  ⟨c._public_key, c._signature, c._algorithm, c._hash_ctx.update data⟩

/-- Feed a list of chunks through successive `update` calls. -/
def _DSAVerificationContext.feed (c : _DSAVerificationContext) (chunks : List Bytes) :
    _DSAVerificationContext :=
  chunks.foldl _DSAVerificationContext.update c

/-- `_DSAVerificationContext.verify`: register a `DSA_free` finalizer on
the public key structure, finalize and truncate the digest, call the
provider `DSA_verify`, and map its result: 1 is a normal return; any
other result first asserts the error queue is non-empty, additionally
asserts the first error comes from the ASN1 library when the result is
-1, and then raises `InvalidSignature`. -/
def _DSAVerificationContext.verify (P : Provider) (w : World) (c : _DSAVerificationContext) :
    World × VerifyOutcome :=
  let w1 := ffi_gc w c._public_key._dsa_cdata.id
  let data_to_verify := c._hash_ctx.finalize
  let data_to_verify := _truncate_digest_for_dsa w1.heap c._public_key._dsa_cdata data_to_verify
  let r := P.DSA_verify data_to_verify c._signature (readPub w1 c._public_key._dsa_cdata)
  (w1,
    if r.1 = 1 then .ok
    else if r.2 = [] then .assertionFailure
    else if r.1 = -1 ∧ (r.2.headD ⟨0⟩).lib ≠ P.ERR_LIB_ASN1 then .assertionFailure
    else .invalidSignature)

/-- `_DSASignatureContext`: the bound private key, algorithm, and the
running hash accumulator. -/
structure _DSASignatureContext where
  _private_key : _DSAPrivateKey
  _algorithm : HashAlgorithm
  _hash_ctx : Hash

/-- `_DSASignatureContext.__init__`. -/
def _DSASignatureContext.init (private_key : _DSAPrivateKey) (algorithm : HashAlgorithm) :
    _DSASignatureContext :=
  ⟨private_key, algorithm, Hash.init algorithm⟩

/-- `_DSASignatureContext.update`. -/
def _DSASignatureContext.update (c : _DSASignatureContext) (data : Bytes) :
    _DSASignatureContext :=
  ⟨c._private_key, c._algorithm, c._hash_ctx.update data⟩

/-- Feed a list of chunks through successive `update` calls. -/
def _DSASignatureContext.feed (c : _DSASignatureContext) (chunks : List Bytes) :
    _DSASignatureContext :=
  chunks.foldl _DSASignatureContext.update c

/-- `_DSASignatureContext.finalize`: finalize and truncate the digest,
allocate a zeroed buffer of `DSA_size` bytes, call the provider
`DSA_sign`, assert it returned 1 and stored a non-zero `buflen`, and
return the first `buflen` bytes of the buffer. -/
def _DSASignatureContext.finalize (P : Provider) (w : World) (c : _DSASignatureContext) :
    World × SignOutcome :=
  let data_to_sign := c._hash_ctx.finalize
  let data_to_sign := _truncate_digest_for_dsa w.heap c._private_key._dsa_cdata data_to_sign
  let sig_buf_len := P.DSA_size (readPriv w c._private_key._dsa_cdata)
  let r := P.DSA_sign data_to_sign (readPriv w c._private_key._dsa_cdata)
  let sig_buf : Bytes := r.2.take sig_buf_len ++ List.replicate (sig_buf_len - r.2.length) 0
  let buflen := r.2.length
  (w,
    if r.1 ≠ 1 then .assertionFailure
    else if buflen = 0 then .assertionFailure
    else .ok (sig_buf.take buflen))

/-- `_DSAPrivateKey.signer`: bind this key and the algorithm to a fresh
signature context. -/
def _DSAPrivateKey.signer (k : _DSAPrivateKey) (signature_algorithm : HashAlgorithm) :
    _DSASignatureContext :=
  _DSASignatureContext.init k signature_algorithm

/-- `_DSAPublicKey.verifier`: bind this key, the claimed signature and
the algorithm to a fresh verification context. -/
def _DSAPublicKey.verifier (k : _DSAPublicKey) (signature : Bytes)
    (signature_algorithm : HashAlgorithm) : _DSAVerificationContext :=
  _DSAVerificationContext.init k signature signature_algorithm

/-! ## Helper views of the embedded computations -/

/-- The result of the `DSA_verify` provider call made by `verify`:
applied to the truncated digest of the accumulated data and the stored
signature bytes. -/
def verifyProviderResult (P : Provider) (w : World) (c : _DSAVerificationContext) :
    Int × List OpenSSLError :=
  P.DSA_verify
    (_truncate_digest_for_dsa w.heap c._public_key._dsa_cdata c._hash_ctx.finalize)
    c._signature (readPub w c._public_key._dsa_cdata)

/-- The result of the `DSA_sign` provider call made by `finalize`. -/
def signProviderResult (P : Provider) (w : World) (c : _DSASignatureContext) :
    Int × Bytes :=
  P.DSA_sign
    (_truncate_digest_for_dsa w.heap c._private_key._dsa_cdata c._hash_ctx.finalize)
    (readPriv w c._private_key._dsa_cdata)

/-- The buffer length `DSA_size` that `finalize` allocates. -/
def sigBufLen (P : Provider) (w : World) (c : _DSASignatureContext) : Nat :=
  P.DSA_size (readPriv w c._private_key._dsa_cdata)

/-- The public portion of a full set of DSA field values. -/
def pubPart (v : DSAValues) : DSAPublicValues :=
  ⟨v.p, v.q, v.g, v.pub_key⟩

/-- Modelled from the spec: the invariants the external provider
guarantees for generated key material (prime order q dividing p - 1,
a generator g of the order-q subgroup, y = g ^ x mod p, 0 < x < q). -/
def GeneratedKeyInvariants (v : DSAValues) : Prop :=
  v.q < v.p ∧ Nat.Prime v.q ∧ v.q ∣ (v.p - 1) ∧ 1 < v.g ∧ v.g ^ v.q % v.p = 1 ∧
  v.pub_key = v.g ^ v.priv_key % v.p ∧ 0 < v.priv_key ∧ v.priv_key < v.q

instance (v : DSAValues) : Decidable (GeneratedKeyInvariants v) := by
  unfold GeneratedKeyInvariants
  infer_instance

/-- Modelled from the spec: the documented contract of the raw provider
primitives for a fixed key pair. Signing succeeds with a non-empty
output that fits the `DSA_size` buffer; a signature verifies exactly
against the digest it was produced for; and on any verification failure
the provider leaves a non-empty error queue whose first entry comes from
the ASN1 library whenever the result code is -1. -/
def SignVerifyContract (P : Provider) (priv : DSAValues) (pub : DSAPublicValues) : Prop :=
  (∀ d : Bytes, (P.DSA_sign d priv).1 = 1) ∧
  (∀ d : Bytes, (P.DSA_sign d priv).2 ≠ []) ∧
  (∀ d : Bytes, (P.DSA_sign d priv).2.length ≤ P.DSA_size priv) ∧
  (∀ d : Bytes, (P.DSA_verify d (P.DSA_sign d priv).2 pub).1 = 1) ∧
  (∀ d e : Bytes, d ≠ e → (P.DSA_verify e (P.DSA_sign d priv).2 pub).1 ≠ 1) ∧
  (∀ d s : Bytes, (P.DSA_verify d s pub).1 ≠ 1 → (P.DSA_verify d s pub).2 ≠ []) ∧
  (∀ d s : Bytes,
    (P.DSA_verify d s pub).1 = -1 →
      ((P.DSA_verify d s pub).2.headD ⟨0⟩).lib = P.ERR_LIB_ASN1)

/-! ## Concrete test fixtures -/

/-- A concrete world: nine allocated big numbers holding the values of a
small but valid DSA key pair (p, q, g, y, x) = (23, 11, 4, 18, 3) and a
separate public copy of (p, q, g, y). -/
def testWorld : World :=
  ⟨⟨fun a => [23, 11, 4, 18, 3, 23, 11, 4, 18].getD a 0, 9⟩, 2, []⟩

/-- A concrete private key whose structure points at the first five
cells of `testWorld`. -/
def testPriv : _DSAPrivateKey :=
  _DSAPrivateKey.init testWorld ⟨0, 0, 1, 2, 3, 4⟩

/-- A concrete public key whose structure points at the last four cells
of `testWorld`. -/
def testPub : _DSAPublicKey :=
  _DSAPublicKey.init testWorld ⟨1, 5, 6, 7, 8, 0⟩

/-- A toy fixed-output-length hash algorithm: the digest is the first
byte of the data followed by the data length mod 256. -/
def testAlg : HashAlgorithm :=
  ⟨fun b => [b.headD 0, b.length % 256]⟩

/-- An injective encoding of a byte string into one natural number. -/
def encodeBytes : Bytes → Nat
  | [] => 0
  | b :: t => Nat.pair b (encodeBytes t) + 1

/-- A concrete provider satisfying the documented contract: signing
packs the digest injectively into a one-element signature, verification
checks it, and every mismatch enqueues a single error from library 7
with result code 0 (no parse failure is ever reported). -/
def testProvider : Provider :=
  ⟨20, fun _ => 1,
    fun d _ => (1, [encodeBytes d]),
    fun d s _ => if s = [encodeBytes d] then (1, []) else (0, [⟨7⟩])⟩

/-- A concrete verification context: `testPub` bound to a bad signature
and fed one chunk. -/
def testVerCtx : _DSAVerificationContext :=
  (testPub.verifier [999] testAlg).feed [[5]]

/-- A concrete signature context: `testPriv` fed one chunk. -/
def testSignCtx : _DSASignatureContext :=
  (testPriv.signer testAlg).feed [[5]]

/-- A second concrete public key: a different structure whose cells hold
the same public values (23, 11, 4, 18) as `testPub`. -/
def testPub2 : _DSAPublicKey :=
  _DSAPublicKey.init testWorld ⟨3, 0, 1, 2, 3, 0⟩

end DSA

namespace DSA

/-! ## Basic lemmas about the embedding -/

theorem bitLenAux_eq_size (fuel n : Nat) (h : n ≤ fuel) : bitLenAux fuel n = Nat.size n := by
  induction fuel generalizing n with
  | zero =>
    have hn : n = 0 := Nat.le_zero.mp h
    simp [bitLenAux, hn]
  | succ fuel ih =>
    by_cases hn : n = 0
    · simp [bitLenAux, hn]
    · have hdiv : n / 2 ≤ fuel := by omega
      have hsz : Nat.size n = Nat.size (n / 2) + 1 := by
        apply le_antisymm
        · rw [Nat.size_le, pow_succ]
          have h1 := Nat.lt_size_self (n / 2)
          omega
        · show Nat.size (n / 2) < Nat.size n
          rw [Nat.lt_size]
          rcases Nat.eq_zero_or_pos (n / 2) with h2 | h2
          · rw [h2]
            simpa using Nat.one_le_iff_ne_zero.mpr hn
          · have h3 : Nat.size (n / 2) - 1 < Nat.size (n / 2) := by
              have := Nat.size_pos.mpr h2
              omega
            have h4 := Nat.lt_size.mp h3
            have h5 : 2 ^ Nat.size (n / 2) = 2 * 2 ^ (Nat.size (n / 2) - 1) := by
              rw [← pow_succ']
              congr 1
              have := Nat.size_pos.mpr h2
              omega
            omega
      rw [hsz, bitLenAux, if_neg hn, ih _ hdiv]

theorem bitLen_eq_size (n : Nat) : bitLen n = Nat.size n :=
  bitLenAux_eq_size n n le_rfl

theorem verify_fst (P : Provider) (w : World) (c : _DSAVerificationContext) :
    (c.verify P w).1 = ffi_gc w c._public_key._dsa_cdata.id := rfl

theorem verify_snd (P : Provider) (w : World) (c : _DSAVerificationContext) :
    (c.verify P w).2 =
      (if (verifyProviderResult P w c).1 = 1 then .ok
       else if (verifyProviderResult P w c).2 = [] then .assertionFailure
       else if (verifyProviderResult P w c).1 = -1 ∧
           ((verifyProviderResult P w c).2.headD ⟨0⟩).lib ≠ P.ERR_LIB_ASN1 then
         .assertionFailure
       else .invalidSignature) := rfl

theorem finalize_fst (P : Provider) (w : World) (c : _DSASignatureContext) :
    (c.finalize P w).1 = w := rfl

theorem finalize_snd (P : Provider) (w : World) (c : _DSASignatureContext) :
    (c.finalize P w).2 =
      (if (signProviderResult P w c).1 ≠ 1 then .assertionFailure
       else if (signProviderResult P w c).2.length = 0 then .assertionFailure
       else .ok
         (((signProviderResult P w c).2.take (sigBufLen P w c) ++
            List.replicate (sigBufLen P w c - (signProviderResult P w c).2.length) 0).take
           (signProviderResult P w c).2.length)) := rfl

theorem feed_fields (chunks : List Bytes) (c : _DSAVerificationContext) :
    (c.feed chunks)._public_key = c._public_key ∧
    (c.feed chunks)._signature = c._signature ∧
    (c.feed chunks)._hash_ctx._algorithm = c._hash_ctx._algorithm ∧
    (c.feed chunks)._hash_ctx.data = c._hash_ctx.data ++ chunks.flatten := by
  induction chunks generalizing c with
  | nil => simp [_DSAVerificationContext.feed]
  | cons x xs ih =>
    have := ih (c.update x)
    simpa [_DSAVerificationContext.feed, _DSAVerificationContext.update, Hash.update,
      List.foldl_cons, List.append_assoc] using this

theorem sfeed_fields (chunks : List Bytes) (c : _DSASignatureContext) :
    (c.feed chunks)._private_key = c._private_key ∧
    (c.feed chunks)._hash_ctx._algorithm = c._hash_ctx._algorithm ∧
    (c.feed chunks)._hash_ctx.data = c._hash_ctx.data ++ chunks.flatten := by
  induction chunks generalizing c with
  | nil => simp [_DSASignatureContext.feed]
  | cons x xs ih =>
    have := ih (c.update x)
    simpa [_DSASignatureContext.feed, _DSASignatureContext.update, Hash.update,
      List.foldl_cons, List.append_assoc] using this

theorem encodeBytes_injective : Function.Injective encodeBytes := by
  intro l1
  induction l1 with
  | nil =>
    intro l2 h
    cases l2 with
    | nil => rfl
    | cons b t => simp [encodeBytes] at h
  | cons a t ih =>
    intro l2 h
    cases l2 with
    | nil => simp [encodeBytes] at h
    | cons b u =>
      simp only [encodeBytes, Nat.add_right_cancel_iff] at h
      obtain ⟨h1, h2⟩ := Nat.pair_eq_pair.mp h
      rw [h1, ih h2]

end DSA

/-! ## C1: the truncation rule -/

/-- C1: for every digest and every `order_bits`, if 8 times the byte
length of the digest exceeds `order_bits` then `_truncate_digest`
returns exactly the leading `ceil(order_bits / 8)` bytes of the digest,
and otherwise it returns the digest unchanged. -/
theorem truncate_digest_correct (digest : DSA.Bytes) (order_bits : Nat) :
    (8 * digest.length > order_bits →
      DSA._truncate_digest digest order_bits = digest.take ((order_bits + 7) / 8) ∧
      (DSA._truncate_digest digest order_bits).length = (order_bits + 7) / 8) ∧
    (8 * digest.length ≤ order_bits →
      DSA._truncate_digest digest order_bits = digest) := by
  constructor
  · intro hgt
    have htake : DSA._truncate_digest digest order_bits
        = digest.take ((order_bits + 7) / 8) := by
      simp [DSA._truncate_digest, hgt]
    refine ⟨htake, ?_⟩
    rw [htake, List.length_take]
    omega
  · intro hle
    simp [DSA._truncate_digest]
    omega

/-- Witness for C1 at a concrete digest and order: a 3-byte digest with
a 13-bit order is longer than the order, and truncates to its leading
`ceil(13/8) = 2` bytes. -/
theorem truncate_digest_correct_witness :
    8 * ([10, 20, 30] : DSA.Bytes).length > 13 ∧
    (DSA._truncate_digest [10, 20, 30] 13 = ([10, 20, 30] : DSA.Bytes).take ((13 + 7) / 8) ∧
      (DSA._truncate_digest [10, 20, 30] 13).length = (13 + 7) / 8) :=
  ⟨by decide, (truncate_digest_correct [10, 20, 30] 13).1 (by decide)⟩

/-! ## C3: normalization of verification failures -/

/-- C3: provided the provider honors its diagnostic contract (non-empty
error queue on failure, ASN1 first error on result -1), `verify` raises
`InvalidSignature` exactly when the provider returns a non-success
result on the truncated digest and the stored signature bytes, and
returns normally on success. -/
theorem verify_invalid_signature_iff (P : DSA.Provider) (w : DSA.World)
    (c : DSA._DSAVerificationContext)
    (hne : (DSA.verifyProviderResult P w c).1 ≠ 1 → (DSA.verifyProviderResult P w c).2 ≠ [])
    (hasn : (DSA.verifyProviderResult P w c).1 = -1 →
      ((DSA.verifyProviderResult P w c).2.headD ⟨0⟩).lib = P.ERR_LIB_ASN1) :
    ((c.verify P w).2 = DSA.VerifyOutcome.invalidSignature ↔
      (DSA.verifyProviderResult P w c).1 ≠ 1) ∧
    ((DSA.verifyProviderResult P w c).1 = 1 → (c.verify P w).2 = DSA.VerifyOutcome.ok) := by
  constructor
  · rw [DSA.verify_snd]
    by_cases h1 : (DSA.verifyProviderResult P w c).1 = 1
    · simp [h1]
    · have h2 := hne h1
      rw [if_neg h1, if_neg h2]
      by_cases h3 : (DSA.verifyProviderResult P w c).1 = -1
      · rw [if_neg (fun hc => hc.2 (hasn h3))]
        simp [h1]
      · rw [if_neg (fun hc => h3 hc.1)]
        simp [h1]
  · intro h
    rw [DSA.verify_snd, if_pos h]

/-- Witness for C3: at the concrete provider, world and context the
diagnostic hypotheses hold and the conclusion is obtained by applying
the theorem. -/
theorem verify_invalid_signature_iff_witness :
    ((DSA.verifyProviderResult DSA.testProvider DSA.testWorld DSA.testVerCtx).1 ≠ 1 →
      (DSA.verifyProviderResult DSA.testProvider DSA.testWorld DSA.testVerCtx).2 ≠ []) ∧
    (((DSA.testVerCtx.verify DSA.testProvider DSA.testWorld).2 =
        DSA.VerifyOutcome.invalidSignature ↔
      (DSA.verifyProviderResult DSA.testProvider DSA.testWorld DSA.testVerCtx).1 ≠ 1) ∧
      ((DSA.verifyProviderResult DSA.testProvider DSA.testWorld DSA.testVerCtx).1 = 1 →
        (DSA.testVerCtx.verify DSA.testProvider DSA.testWorld).2 = DSA.VerifyOutcome.ok)) :=
  ⟨by decide,
    verify_invalid_signature_iff DSA.testProvider DSA.testWorld DSA.testVerCtx
      (by decide) (by decide)⟩

/-! ## C7: assertions in finalize -/

/-- C7: a structural provider failure in `finalize` (result code other
than 1 or an empty output) yields a failed assertion, not a returned
error; when the provider honors its contract, `finalize` returns the
first `buflen` bytes of the provider-filled buffer, which are exactly
the bytes the provider wrote when they fit the `DSA_size` buffer. -/
theorem finalize_assert_and_result (P : DSA.Provider) (w : DSA.World)
    (c : DSA._DSASignatureContext) :
    ((DSA.signProviderResult P w c).1 ≠ 1 ∨ (DSA.signProviderResult P w c).2.length = 0 →
      (c.finalize P w).2 = DSA.SignOutcome.assertionFailure) ∧
    ((DSA.signProviderResult P w c).1 = 1 → (DSA.signProviderResult P w c).2.length ≠ 0 →
      (c.finalize P w).2 = DSA.SignOutcome.ok
        (((DSA.signProviderResult P w c).2.take (DSA.sigBufLen P w c) ++
            List.replicate
              (DSA.sigBufLen P w c - (DSA.signProviderResult P w c).2.length) 0).take
          (DSA.signProviderResult P w c).2.length)) ∧
    ((DSA.signProviderResult P w c).1 = 1 → (DSA.signProviderResult P w c).2.length ≠ 0 →
      (DSA.signProviderResult P w c).2.length ≤ DSA.sigBufLen P w c →
      (c.finalize P w).2 = DSA.SignOutcome.ok (DSA.signProviderResult P w c).2) := by
  refine ⟨?_, ?_, ?_⟩
  · intro h
    rw [DSA.finalize_snd]
    by_cases hr : (DSA.signProviderResult P w c).1 = 1
    · have hlen : (DSA.signProviderResult P w c).2.length = 0 := by
        rcases h with h | h
        · exact absurd hr h
        · exact h
      rw [if_neg (fun hn => hn hr), if_pos hlen]
    · rw [if_pos hr]
  · intro h1 h2
    rw [DSA.finalize_snd, if_neg (fun hn => hn h1), if_neg h2]
  · intro h1 h2 h3
    rw [DSA.finalize_snd, if_neg (fun hn => hn h1), if_neg h2]
    congr 1
    rw [List.take_of_length_le h3]
    exact List.take_left _ _

/-- Witness for C7: with the concrete provider and context the contract
hypotheses hold and `finalize` returns exactly the provider-written
bytes. -/
theorem finalize_assert_and_result_witness :
    (DSA.signProviderResult DSA.testProvider DSA.testWorld DSA.testSignCtx).1 = 1 ∧
    (DSA.signProviderResult DSA.testProvider DSA.testWorld DSA.testSignCtx).2.length ≠ 0 ∧
    (DSA.signProviderResult DSA.testProvider DSA.testWorld DSA.testSignCtx).2.length ≤
      DSA.sigBufLen DSA.testProvider DSA.testWorld DSA.testSignCtx ∧
    (DSA.testSignCtx.finalize DSA.testProvider DSA.testWorld).2 =
      DSA.SignOutcome.ok
        (DSA.signProviderResult DSA.testProvider DSA.testWorld DSA.testSignCtx).2 :=
  ⟨by decide, by decide, by decide,
    (finalize_assert_and_result DSA.testProvider DSA.testWorld DSA.testSignCtx).2.2
      (by decide) (by decide) (by decide)⟩

/-! ## C8: assertions in verify -/

/-- C8: on a non-success verification result the module asserts the
error queue is non-empty, additionally asserts the first error comes
from the ASN1 library when the result is -1, and raises
`InvalidSignature` only when both assertions hold. -/
theorem verify_assertion_semantics (P : DSA.Provider) (w : DSA.World)
    (c : DSA._DSAVerificationContext) :
    ((DSA.verifyProviderResult P w c).1 ≠ 1 ∧ (DSA.verifyProviderResult P w c).2 = [] →
      (c.verify P w).2 = DSA.VerifyOutcome.assertionFailure) ∧
    ((DSA.verifyProviderResult P w c).1 = -1 ∧ (DSA.verifyProviderResult P w c).2 ≠ [] ∧
        ((DSA.verifyProviderResult P w c).2.headD ⟨0⟩).lib ≠ P.ERR_LIB_ASN1 →
      (c.verify P w).2 = DSA.VerifyOutcome.assertionFailure) ∧
    ((DSA.verifyProviderResult P w c).1 ≠ 1 ∧ (DSA.verifyProviderResult P w c).2 ≠ [] ∧
        ((DSA.verifyProviderResult P w c).1 = -1 →
          ((DSA.verifyProviderResult P w c).2.headD ⟨0⟩).lib = P.ERR_LIB_ASN1) →
      (c.verify P w).2 = DSA.VerifyOutcome.invalidSignature) := by
  refine ⟨?_, ?_, ?_⟩
  · rintro ⟨h1, h2⟩
    rw [DSA.verify_snd, if_neg h1, if_pos h2]
  · rintro ⟨h3, h2, h4⟩
    have h1 : (DSA.verifyProviderResult P w c).1 ≠ 1 := by
      rw [h3]
      decide
    rw [DSA.verify_snd, if_neg h1, if_neg h2, if_pos ⟨h3, h4⟩]
  · rintro ⟨h1, h2, h5⟩
    rw [DSA.verify_snd, if_neg h1, if_neg h2]
    by_cases h3 : (DSA.verifyProviderResult P w c).1 = -1
    · rw [if_neg (fun hc => hc.2 (h5 h3))]
    · rw [if_neg (fun hc => h3 hc.1)]

/-- Witness for C8: at the concrete mismatching context the result code
is 0 with a non-empty error queue, so `verify` raises
`InvalidSignature`. -/
theorem verify_assertion_semantics_witness :
    ((DSA.verifyProviderResult DSA.testProvider DSA.testWorld DSA.testVerCtx).1 ≠ 1 ∧
      (DSA.verifyProviderResult DSA.testProvider DSA.testWorld DSA.testVerCtx).2 ≠ [] ∧
      ((DSA.verifyProviderResult DSA.testProvider DSA.testWorld DSA.testVerCtx).1 = -1 →
        ((DSA.verifyProviderResult DSA.testProvider DSA.testWorld
            DSA.testVerCtx).2.headD ⟨0⟩).lib = DSA.testProvider.ERR_LIB_ASN1)) ∧
    (DSA.testVerCtx.verify DSA.testProvider DSA.testWorld).2 =
      DSA.VerifyOutcome.invalidSignature :=
  ⟨by decide,
    (verify_assertion_semantics DSA.testProvider DSA.testWorld DSA.testVerCtx).2.2
      (by decide)⟩

/-! ## C6: effect of running a context on its key -/

/-- C6 (refuted on the verification side): `verify` registers a fresh
`DSA_free` finalizer on the public key structure it borrowed from the
key, so running it does change the ownership of the provider handle;
`finalize` on the signing side leaves the world untouched. -/
theorem verify_adds_key_finalizer (P : DSA.Provider) (w : DSA.World)
    (c : DSA._DSAVerificationContext) :
    ((c.verify P w).1).finalizers = c._public_key._dsa_cdata.id :: w.finalizers ∧
    ((c.verify P w).1).finalizers ≠ w.finalizers ∧
    ∀ csign : DSA._DSASignatureContext, (csign.finalize P w).1 = w := by
  refine ⟨rfl, ?_, fun _ => rfl⟩
  rw [DSA.verify_fst]
  simp [DSA.ffi_gc]

/-! ## C4: public numbers round-trip -/

/-- C4: the public numbers read from the public key derived by
`public_key()` equal the public portion of the private numbers read from
the private key itself (the four duplicated big numbers carry the same
values), for any key whose bignum addresses are live in the heap. -/
theorem public_key_numbers_roundtrip (w : DSA.World) (k : DSA._DSAPrivateKey)
    (_hp : k._dsa_cdata.p < w.heap.next) (hq : k._dsa_cdata.q < w.heap.next)
    (hg : k._dsa_cdata.g < w.heap.next) (hy : k._dsa_cdata.pub_key < w.heap.next) :
    ((k.public_key w).2).public_numbers (k.public_key w).1 =
      (k.private_numbers w).public_numbers := by
  simp only [DSA._DSAPrivateKey.public_key, DSA._DSAPublicKey.public_numbers,
    DSA._DSAPrivateKey.private_numbers, DSA._DSAPublicKey.init, DSA.DSA_new, DSA.ffi_gc,
    DSA.BN_dup, DSA.BNHeap.alloc, DSA.bn_to_int]
  simp only [DSA.DSAPublicNumbers.mk.injEq, DSA.DSAParameterNumbers.mk.injEq]
  refine ⟨⟨?_, ?_, ?_⟩, ?_⟩ <;> (split_ifs <;> omega)

/-- Witness for C4 at the concrete world and key: the derived public key
exposes exactly (23, 11, 4) and y = 18. -/
theorem public_key_numbers_roundtrip_witness :
    (DSA.testPriv._dsa_cdata.p < DSA.testWorld.heap.next ∧
      DSA.testPriv._dsa_cdata.q < DSA.testWorld.heap.next ∧
      DSA.testPriv._dsa_cdata.g < DSA.testWorld.heap.next ∧
      DSA.testPriv._dsa_cdata.pub_key < DSA.testWorld.heap.next) ∧
    ((DSA.testPriv.public_key DSA.testWorld).2).public_numbers
        (DSA.testPriv.public_key DSA.testWorld).1 =
      (DSA.testPriv.private_numbers DSA.testWorld).public_numbers :=
  ⟨⟨by decide, by decide, by decide, by decide⟩,
    public_key_numbers_roundtrip DSA.testWorld DSA.testPriv
      (by decide) (by decide) (by decide) (by decide)⟩

/-! ## C9: key_size -/

/-- C9: both key constructors compute `key_size` as the bit length of p
at construction; the read-only property rejects assignment; and the
world-evolving key operations leave the p cell (hence the bit length it
caches) unchanged. -/
theorem key_size_correct (w : DSA.World) (cd : DSA.DSA_cdata) :
    (DSA._DSAPrivateKey.init w cd).key_size = Nat.size (DSA.bn_to_int w cd.p) ∧
    (DSA._DSAPublicKey.init w cd).key_size = Nat.size (DSA.bn_to_int w cd.p) ∧
    (∀ v, (DSA._DSAPrivateKey.init w cd).set_key_size v = DSA.SetAttr.attributeError) ∧
    (∀ v, (DSA._DSAPublicKey.init w cd).set_key_size v = DSA.SetAttr.attributeError) ∧
    (cd.p < w.heap.next →
      DSA.bn_to_int ((DSA._DSAPrivateKey.init w cd).public_key w).1 cd.p
          = DSA.bn_to_int w cd.p ∧
      DSA.bn_to_int ((DSA._DSAPrivateKey.init w cd).parameters w).1 cd.p
          = DSA.bn_to_int w cd.p) := by
  refine ⟨?_, ?_, fun _ => rfl, fun _ => rfl, ?_⟩
  · simp [DSA._DSAPrivateKey.init, DSA._DSAPrivateKey.key_size, DSA.BN_num_bits,
      DSA.bitLen_eq_size, DSA.bn_to_int]
  · simp [DSA._DSAPublicKey.init, DSA._DSAPublicKey.key_size, DSA.BN_num_bits,
      DSA.bitLen_eq_size, DSA.bn_to_int]
  · intro hlt
    constructor
    · simp only [DSA._DSAPrivateKey.public_key, DSA._DSAPrivateKey.init, DSA.DSA_new,
        DSA.ffi_gc, DSA.BN_dup, DSA.BNHeap.alloc, DSA.bn_to_int]
      split_ifs <;> omega
    · simp only [DSA._DSAPrivateKey.parameters, DSA._DSAPrivateKey.init, DSA.DSA_new,
        DSA.ffi_gc, DSA.BN_dup, DSA.BNHeap.alloc, DSA.bn_to_int]
      split_ifs <;> omega

/-- Witness for C9 at the concrete world and structure: the cached
`key_size` is 5 (the bit length of 23) and the p cell is untouched by
the derivations. -/
theorem key_size_correct_witness :
    DSA.testPriv.key_size = 5 ∧
    DSA.testPriv._dsa_cdata.p < DSA.testWorld.heap.next ∧
    (DSA.bn_to_int
        ((DSA._DSAPrivateKey.init DSA.testWorld DSA.testPriv._dsa_cdata).public_key
          DSA.testWorld).1 DSA.testPriv._dsa_cdata.p
        = DSA.bn_to_int DSA.testWorld DSA.testPriv._dsa_cdata.p ∧
      DSA.bn_to_int
        ((DSA._DSAPrivateKey.init DSA.testWorld DSA.testPriv._dsa_cdata).parameters
          DSA.testWorld).1 DSA.testPriv._dsa_cdata.p
        = DSA.bn_to_int DSA.testWorld DSA.testPriv._dsa_cdata.p) :=
  ⟨by decide, by decide,
    (key_size_correct DSA.testWorld DSA.testPriv._dsa_cdata).2.2.2.2 (by decide)⟩

/-! ## C10: determinism of verification -/

/-- C10: the outcome of `verify` is a function of the public key values
(p, q, g, y), the signature bytes, and the concatenation of the bytes
fed through `update` alone: two runs over possibly different heaps,
structures and chunkings agree whenever those inputs agree. -/
theorem verify_deterministic (P : DSA.Provider) (alg : DSA.HashAlgorithm) (sig : DSA.Bytes)
    (w1 w2 : DSA.World) (k1 k2 : DSA._DSAPublicKey) (chunks1 chunks2 : List DSA.Bytes)
    (hnums : DSA.readPub w1 k1._dsa_cdata = DSA.readPub w2 k2._dsa_cdata)
    (hmsg : chunks1.flatten = chunks2.flatten) :
    (((k1.verifier sig alg).feed chunks1).verify P w1).2 =
      (((k2.verifier sig alg).feed chunks2).verify P w2).2 := by
  obtain ⟨hpk1, hsig1, halg1, hdata1⟩ := DSA.feed_fields chunks1 (k1.verifier sig alg)
  obtain ⟨hpk2, hsig2, halg2, hdata2⟩ := DSA.feed_fields chunks2 (k2.verifier sig alg)
  have hq : w1.heap.store k1._dsa_cdata.q = w2.heap.store k2._dsa_cdata.q := by
    have := congrArg DSA.DSAPublicValues.q hnums
    simpa [DSA.readPub, DSA.bn_to_int] using this
  have hdig : (((k1.verifier sig alg).feed chunks1))._hash_ctx.finalize =
      (((k2.verifier sig alg).feed chunks2))._hash_ctx.finalize := by
    show (((k1.verifier sig alg).feed chunks1))._hash_ctx._algorithm.digest
        ((((k1.verifier sig alg).feed chunks1))._hash_ctx.data) =
      (((k2.verifier sig alg).feed chunks2))._hash_ctx._algorithm.digest
        ((((k2.verifier sig alg).feed chunks2))._hash_ctx.data)
    rw [halg1, hdata1, halg2, hdata2]
    simp [DSA._DSAPublicKey.verifier, DSA._DSAVerificationContext.init, DSA.Hash.init, hmsg]
  have key : DSA.verifyProviderResult P w1 ((k1.verifier sig alg).feed chunks1)
      = DSA.verifyProviderResult P w2 ((k2.verifier sig alg).feed chunks2) := by
    unfold DSA.verifyProviderResult DSA._truncate_digest_for_dsa DSA.BN_num_bits
    rw [hpk1, hpk2, hsig1, hsig2, hdig]
    show P.DSA_verify
        (DSA._truncate_digest _ (DSA.bitLen (w1.heap.store k1._dsa_cdata.q))) sig
        (DSA.readPub w1 k1._dsa_cdata) = _
    rw [hq, hnums]
    rfl
  rw [DSA.verify_snd, DSA.verify_snd, key]

/-- Witness for C10: two structurally different public keys over the
same values, fed the same message in different chunkings, produce the
same verification outcome. -/
theorem verify_deterministic_witness :
    DSA.readPub DSA.testWorld DSA.testPub._dsa_cdata =
      DSA.readPub DSA.testWorld DSA.testPub2._dsa_cdata ∧
    ([[5], [6]] : List DSA.Bytes).flatten = ([[5, 6]] : List DSA.Bytes).flatten ∧
    (((DSA.testPub.verifier [999] DSA.testAlg).feed [[5], [6]]).verify DSA.testProvider
        DSA.testWorld).2 =
      (((DSA.testPub2.verifier [999] DSA.testAlg).feed [[5, 6]]).verify DSA.testProvider
        DSA.testWorld).2 :=
  ⟨by decide, by decide,
    verify_deterministic DSA.testProvider DSA.testAlg [999] DSA.testWorld DSA.testWorld
      DSA.testPub DSA.testPub2 [[5], [6]] [[5, 6]] (by decide) (by decide)⟩

/-! ## C5: derived handles are deep copies -/

namespace DSA

theorem private_numbers_setBN (w : World) (k : _DSAPrivateKey) (a v : Nat)
    (h : a ≠ k._dsa_cdata.p ∧ a ≠ k._dsa_cdata.q ∧ a ≠ k._dsa_cdata.g ∧
      a ≠ k._dsa_cdata.pub_key ∧ a ≠ k._dsa_cdata.priv_key) :
    k.private_numbers (World.setBN w a v) = k.private_numbers w := by
  obtain ⟨h1, h2, h3, h4, h5⟩ := h
  simp only [_DSAPrivateKey.private_numbers, World.setBN, BNHeap.set, bn_to_int]
  rw [if_neg (fun e => h1 e.symm), if_neg (fun e => h2 e.symm), if_neg (fun e => h3 e.symm),
    if_neg (fun e => h4 e.symm), if_neg (fun e => h5 e.symm)]

theorem public_numbers_setBN (w : World) (k : _DSAPublicKey) (a v : Nat)
    (h : a ≠ k._dsa_cdata.p ∧ a ≠ k._dsa_cdata.q ∧ a ≠ k._dsa_cdata.g ∧
      a ≠ k._dsa_cdata.pub_key) :
    k.public_numbers (World.setBN w a v) = k.public_numbers w := by
  obtain ⟨h1, h2, h3, h4⟩ := h
  simp only [_DSAPublicKey.public_numbers, World.setBN, BNHeap.set, bn_to_int]
  rw [if_neg (fun e => h1 e.symm), if_neg (fun e => h2 e.symm), if_neg (fun e => h3 e.symm),
    if_neg (fun e => h4 e.symm)]

theorem parameter_numbers_setBN (w : World) (ps : _DSAParameters) (a v : Nat)
    (h : a ≠ ps._dsa_cdata.p ∧ a ≠ ps._dsa_cdata.q ∧ a ≠ ps._dsa_cdata.g) :
    ps.parameter_numbers (World.setBN w a v) = ps.parameter_numbers w := by
  obtain ⟨h1, h2, h3⟩ := h
  simp only [_DSAParameters.parameter_numbers, World.setBN, BNHeap.set, bn_to_int]
  rw [if_neg (fun e => h1 e.symm), if_neg (fun e => h2 e.symm), if_neg (fun e => h3 e.symm)]

theorem public_key_addrs (w : World) (k : _DSAPrivateKey) :
    ((k.public_key w).2)._dsa_cdata.p = w.heap.next ∧
    ((k.public_key w).2)._dsa_cdata.q = w.heap.next + 1 ∧
    ((k.public_key w).2)._dsa_cdata.g = w.heap.next + 1 + 1 ∧
    ((k.public_key w).2)._dsa_cdata.pub_key = w.heap.next + 1 + 1 + 1 ∧
    ((k.public_key w).2)._dsa_cdata.id = w.nextId :=
  ⟨rfl, rfl, rfl, rfl, rfl⟩

theorem parameters_addrs (w : World) (k : _DSAPrivateKey) :
    ((k.parameters w).2)._dsa_cdata.p = w.heap.next ∧
    ((k.parameters w).2)._dsa_cdata.q = w.heap.next + 1 ∧
    ((k.parameters w).2)._dsa_cdata.g = w.heap.next + 1 + 1 ∧
    ((k.parameters w).2)._dsa_cdata.id = w.nextId :=
  ⟨rfl, rfl, rfl, rfl⟩

theorem pub_parameters_addrs (w : World) (pk : _DSAPublicKey) :
    ((pk.parameters w).2)._dsa_cdata.p = w.heap.next ∧
    ((pk.parameters w).2)._dsa_cdata.q = w.heap.next + 1 ∧
    ((pk.parameters w).2)._dsa_cdata.g = w.heap.next + 1 + 1 ∧
    ((pk.parameters w).2)._dsa_cdata.id = w.nextId :=
  ⟨rfl, rfl, rfl, rfl⟩

end DSA

/-- C5: the public key derived by `public_key()` and the parameters
derived by `parameters()` (from either key type) consist of a fresh
structure and freshly duplicated big numbers: the derived structure
identity differs from the source one, and overwriting any cell owned by
one side never changes the numbers observable through the other. -/
theorem derived_handles_deep_copy (w : DSA.World) (k : DSA._DSAPrivateKey)
    (pk : DSA._DSAPublicKey)
    (hkp : k._dsa_cdata.p < w.heap.next) (hkq : k._dsa_cdata.q < w.heap.next)
    (hkg : k._dsa_cdata.g < w.heap.next) (hky : k._dsa_cdata.pub_key < w.heap.next)
    (hkx : k._dsa_cdata.priv_key < w.heap.next) (hkid : k._dsa_cdata.id < w.nextId)
    (hpp : pk._dsa_cdata.p < w.heap.next) (hpq : pk._dsa_cdata.q < w.heap.next)
    (hpg : pk._dsa_cdata.g < w.heap.next) (hpy : pk._dsa_cdata.pub_key < w.heap.next)
    (hpid : pk._dsa_cdata.id < w.nextId) :
    (((k.public_key w).2)._dsa_cdata.id ≠ k._dsa_cdata.id ∧
      (∀ a v,
        (a = ((k.public_key w).2)._dsa_cdata.p ∨ a = ((k.public_key w).2)._dsa_cdata.q ∨
          a = ((k.public_key w).2)._dsa_cdata.g ∨
          a = ((k.public_key w).2)._dsa_cdata.pub_key) →
        k.private_numbers (DSA.World.setBN (k.public_key w).1 a v)
          = k.private_numbers (k.public_key w).1) ∧
      (∀ a v,
        (a = k._dsa_cdata.p ∨ a = k._dsa_cdata.q ∨ a = k._dsa_cdata.g ∨
          a = k._dsa_cdata.pub_key ∨ a = k._dsa_cdata.priv_key) →
        ((k.public_key w).2).public_numbers (DSA.World.setBN (k.public_key w).1 a v)
          = ((k.public_key w).2).public_numbers (k.public_key w).1)) ∧
    (((k.parameters w).2)._dsa_cdata.id ≠ k._dsa_cdata.id ∧
      (∀ a v,
        (a = ((k.parameters w).2)._dsa_cdata.p ∨ a = ((k.parameters w).2)._dsa_cdata.q ∨
          a = ((k.parameters w).2)._dsa_cdata.g) →
        k.private_numbers (DSA.World.setBN (k.parameters w).1 a v)
          = k.private_numbers (k.parameters w).1) ∧
      (∀ a v,
        (a = k._dsa_cdata.p ∨ a = k._dsa_cdata.q ∨ a = k._dsa_cdata.g ∨
          a = k._dsa_cdata.pub_key ∨ a = k._dsa_cdata.priv_key) →
        ((k.parameters w).2).parameter_numbers (DSA.World.setBN (k.parameters w).1 a v)
          = ((k.parameters w).2).parameter_numbers (k.parameters w).1)) ∧
    (((pk.parameters w).2)._dsa_cdata.id ≠ pk._dsa_cdata.id ∧
      (∀ a v,
        (a = ((pk.parameters w).2)._dsa_cdata.p ∨ a = ((pk.parameters w).2)._dsa_cdata.q ∨
          a = ((pk.parameters w).2)._dsa_cdata.g) →
        pk.public_numbers (DSA.World.setBN (pk.parameters w).1 a v)
          = pk.public_numbers (pk.parameters w).1) ∧
      (∀ a v,
        (a = pk._dsa_cdata.p ∨ a = pk._dsa_cdata.q ∨ a = pk._dsa_cdata.g ∨
          a = pk._dsa_cdata.pub_key) →
        ((pk.parameters w).2).parameter_numbers (DSA.World.setBN (pk.parameters w).1 a v)
          = ((pk.parameters w).2).parameter_numbers (pk.parameters w).1)) := by
  refine ⟨⟨?_, ?_, ?_⟩, ⟨?_, ?_, ?_⟩, ⟨?_, ?_, ?_⟩⟩
  · obtain ⟨-, -, -, -, e5⟩ := DSA.public_key_addrs w k
    rw [e5]
    clear e5
    omega
  · intro a v ha
    obtain ⟨e1, e2, e3, e4, -⟩ := DSA.public_key_addrs w k
    rw [e1, e2, e3, e4] at ha
    clear e1 e2 e3 e4
    exact DSA.private_numbers_setBN _ k a v ⟨by omega, by omega, by omega, by omega, by omega⟩
  · intro a v ha
    apply DSA.public_numbers_setBN
    obtain ⟨e1, e2, e3, e4, -⟩ := DSA.public_key_addrs w k
    rw [e1, e2, e3, e4]
    clear e1 e2 e3 e4
    refine ⟨by omega, by omega, by omega, by omega⟩
  · obtain ⟨-, -, -, e4⟩ := DSA.parameters_addrs w k
    rw [e4]
    clear e4
    omega
  · intro a v ha
    obtain ⟨e1, e2, e3, -⟩ := DSA.parameters_addrs w k
    rw [e1, e2, e3] at ha
    clear e1 e2 e3
    exact DSA.private_numbers_setBN _ k a v ⟨by omega, by omega, by omega, by omega, by omega⟩
  · intro a v ha
    apply DSA.parameter_numbers_setBN
    obtain ⟨e1, e2, e3, -⟩ := DSA.parameters_addrs w k
    rw [e1, e2, e3]
    clear e1 e2 e3
    refine ⟨by omega, by omega, by omega⟩
  · obtain ⟨-, -, -, e4⟩ := DSA.pub_parameters_addrs w pk
    rw [e4]
    clear e4
    omega
  · intro a v ha
    obtain ⟨e1, e2, e3, -⟩ := DSA.pub_parameters_addrs w pk
    rw [e1, e2, e3] at ha
    clear e1 e2 e3
    exact DSA.public_numbers_setBN _ pk a v ⟨by omega, by omega, by omega, by omega⟩
  · intro a v ha
    apply DSA.parameter_numbers_setBN
    obtain ⟨e1, e2, e3, -⟩ := DSA.pub_parameters_addrs w pk
    rw [e1, e2, e3]
    clear e1 e2 e3
    refine ⟨by omega, by omega, by omega⟩

/-- Witness for C5: at the concrete world and keys the liveness
hypotheses hold, and overwriting the p cell of the derived public key
leaves the private numbers of the source key unchanged. -/
theorem derived_handles_deep_copy_witness :
    (DSA.testPriv._dsa_cdata.p < DSA.testWorld.heap.next ∧
      DSA.testPriv._dsa_cdata.id < DSA.testWorld.nextId ∧
      DSA.testPub._dsa_cdata.id < DSA.testWorld.nextId) ∧
    DSA.testPriv.private_numbers
        (DSA.World.setBN (DSA.testPriv.public_key DSA.testWorld).1
          ((DSA.testPriv.public_key DSA.testWorld).2)._dsa_cdata.p 999)
      = DSA.testPriv.private_numbers (DSA.testPriv.public_key DSA.testWorld).1 :=
  ⟨⟨by decide, by decide, by decide⟩,
    (derived_handles_deep_copy DSA.testWorld DSA.testPriv DSA.testPub
        (by decide) (by decide) (by decide) (by decide) (by decide) (by decide)
        (by decide) (by decide) (by decide) (by decide) (by decide)).1.2.1
      ((DSA.testPriv.public_key DSA.testWorld).2)._dsa_cdata.p 999 (Or.inl rfl)⟩

/-! ## C2: sign and verify over a key pair -/

namespace DSA

theorem testProvider_contract (priv : DSAValues) (pub : DSAPublicValues) :
    SignVerifyContract testProvider priv pub := by
  refine ⟨fun d => rfl, fun d => by simp [testProvider], fun d => by simp [testProvider],
    fun d => by simp [testProvider], ?_, ?_, ?_⟩
  · intro d e hde hv
    simp only [testProvider] at hv
    by_cases h : ([encodeBytes d] : Bytes) = [encodeBytes e]
    · exact hde (encodeBytes_injective (by simpa using h))
    · rw [if_neg h] at hv
      exact absurd hv (by decide)
  · intro d s hne
    simp only [testProvider] at hne ⊢
    by_cases h : s = [encodeBytes d]
    · rw [if_pos h] at hne
      exact absurd rfl hne
    · rw [if_neg h]
      simp
  · intro d s h1
    simp only [testProvider] at h1
    by_cases h : s = [encodeBytes d]
    · rw [if_pos h] at h1
      exact absurd h1 (by decide)
    · rw [if_neg h] at h1
      exact absurd h1 (by decide)

end DSA

/-- C2 (amended): for a provider meeting its documented sign/verify
contract and a public key whose values are the public portion of the
private key values, signing any message m yields bytes s that verify
against m; and verification of s against any message whose truncated
digest differs from that of m raises `InvalidSignature`. (Messages whose
digests coincide after truncation to the bit length of q are accepted —
see the counterexample to the unamended claim.) -/
theorem sign_verify_roundtrip (P : DSA.Provider) (alg : DSA.HashAlgorithm)
    (w1 w2 : DSA.World) (k : DSA._DSAPrivateKey) (pk : DSA._DSAPublicKey)
    (m mp : List DSA.Bytes)
    (hcorr : DSA.readPub w2 pk._dsa_cdata = DSA.pubPart (DSA.readPriv w1 k._dsa_cdata))
    (hC : DSA.SignVerifyContract P (DSA.readPriv w1 k._dsa_cdata)
      (DSA.readPub w2 pk._dsa_cdata)) :
    ∃ s : DSA.Bytes,
      (((k.signer alg).feed m).finalize P w1).2 = DSA.SignOutcome.ok s ∧
      (((pk.verifier s alg).feed m).verify P w2).2 = DSA.VerifyOutcome.ok ∧
      (DSA._truncate_digest (alg.digest mp.flatten)
            (DSA.BN_num_bits w2.heap pk._dsa_cdata.q)
          ≠ DSA._truncate_digest (alg.digest m.flatten)
            (DSA.BN_num_bits w2.heap pk._dsa_cdata.q) →
        (((pk.verifier s alg).feed mp).verify P w2).2
          = DSA.VerifyOutcome.invalidSignature) := by
  obtain ⟨hc1, hc2, hc3, hc4, hc5, hc6, hc7⟩ := hC
  have hqq : w2.heap.store pk._dsa_cdata.q = w1.heap.store k._dsa_cdata.q := by
    have := congrArg DSA.DSAPublicValues.q hcorr
    simpa [DSA.readPub, DSA.readPriv, DSA.pubPart, DSA.bn_to_int] using this
  obtain ⟨hk, halg, hdata⟩ := DSA.sfeed_fields m (k.signer alg)
  have hdig : (((k.signer alg).feed m))._hash_ctx.finalize = alg.digest m.flatten := by
    show (((k.signer alg).feed m))._hash_ctx._algorithm.digest
        ((((k.signer alg).feed m))._hash_ctx.data) = _
    rw [halg, hdata]
    simp [DSA._DSAPrivateKey.signer, DSA._DSASignatureContext.init, DSA.Hash.init]
  have hsign : DSA.signProviderResult P w1 ((k.signer alg).feed m)
      = P.DSA_sign
          (DSA._truncate_digest (alg.digest m.flatten)
            (DSA.BN_num_bits w1.heap k._dsa_cdata.q))
          (DSA.readPriv w1 k._dsa_cdata) := by
    unfold DSA.signProviderResult DSA._truncate_digest_for_dsa
    rw [hk, hdig]
    rfl
  have hbuf : DSA.sigBufLen P w1 ((k.signer alg).feed m)
      = P.DSA_size (DSA.readPriv w1 k._dsa_cdata) := by
    unfold DSA.sigBufLen
    rw [hk]
    rfl
  have htrord : DSA.BN_num_bits w2.heap pk._dsa_cdata.q
      = DSA.BN_num_bits w1.heap k._dsa_cdata.q := by
    unfold DSA.BN_num_bits
    rw [hqq]
  refine ⟨(P.DSA_sign
      (DSA._truncate_digest (alg.digest m.flatten)
        (DSA.BN_num_bits w1.heap k._dsa_cdata.q))
      (DSA.readPriv w1 k._dsa_cdata)).2, ?_, ?_, ?_⟩
  · rw [DSA.finalize_snd, hsign, hbuf]
    rw [if_neg (fun hn => hn (hc1 _)),
      if_neg (fun h0 => hc2 _ (List.length_eq_zero.mp h0))]
    congr 1
    rw [List.take_of_length_le (hc3 _)]
    exact List.take_left _ _
  · obtain ⟨hpk2, hsig2, halg2, hdata2⟩ := DSA.feed_fields m (pk.verifier _ alg)
    have hdig2 : (((pk.verifier (P.DSA_sign
          (DSA._truncate_digest (alg.digest m.flatten)
            (DSA.BN_num_bits w1.heap k._dsa_cdata.q))
          (DSA.readPriv w1 k._dsa_cdata)).2 alg).feed m))._hash_ctx.finalize
        = alg.digest m.flatten := by
      show (((pk.verifier _ alg).feed m))._hash_ctx._algorithm.digest
          ((((pk.verifier _ alg).feed m))._hash_ctx.data) = _
      rw [halg2, hdata2]
      simp [DSA._DSAPublicKey.verifier, DSA._DSAVerificationContext.init, DSA.Hash.init]
    have hver : DSA.verifyProviderResult P w2 ((pk.verifier (P.DSA_sign
          (DSA._truncate_digest (alg.digest m.flatten)
            (DSA.BN_num_bits w1.heap k._dsa_cdata.q))
          (DSA.readPriv w1 k._dsa_cdata)).2 alg).feed m)
        = P.DSA_verify
            (DSA._truncate_digest (alg.digest m.flatten)
              (DSA.BN_num_bits w1.heap k._dsa_cdata.q))
            (P.DSA_sign
              (DSA._truncate_digest (alg.digest m.flatten)
                (DSA.BN_num_bits w1.heap k._dsa_cdata.q))
              (DSA.readPriv w1 k._dsa_cdata)).2
            (DSA.readPub w2 pk._dsa_cdata) := by
      unfold DSA.verifyProviderResult DSA._truncate_digest_for_dsa
      rw [hpk2, hsig2, hdig2]
      show P.DSA_verify
          (DSA._truncate_digest (alg.digest m.flatten)
            (DSA.BN_num_bits w2.heap pk._dsa_cdata.q))
          (P.DSA_sign
            (DSA._truncate_digest (alg.digest m.flatten)
              (DSA.BN_num_bits w1.heap k._dsa_cdata.q))
            (DSA.readPriv w1 k._dsa_cdata)).2
          (DSA.readPub w2 pk._dsa_cdata) = _
      rw [htrord]
    rw [DSA.verify_snd, hver, if_pos (hc4 _)]
  · intro hdiff
    rw [htrord] at hdiff
    obtain ⟨hpk3, hsig3, halg3, hdata3⟩ := DSA.feed_fields mp (pk.verifier _ alg)
    have hdig3 : (((pk.verifier (P.DSA_sign
          (DSA._truncate_digest (alg.digest m.flatten)
            (DSA.BN_num_bits w1.heap k._dsa_cdata.q))
          (DSA.readPriv w1 k._dsa_cdata)).2 alg).feed mp))._hash_ctx.finalize
        = alg.digest mp.flatten := by
      show (((pk.verifier _ alg).feed mp))._hash_ctx._algorithm.digest
          ((((pk.verifier _ alg).feed mp))._hash_ctx.data) = _
      rw [halg3, hdata3]
      simp [DSA._DSAPublicKey.verifier, DSA._DSAVerificationContext.init, DSA.Hash.init]
    have hver3 : DSA.verifyProviderResult P w2 ((pk.verifier (P.DSA_sign
          (DSA._truncate_digest (alg.digest m.flatten)
            (DSA.BN_num_bits w1.heap k._dsa_cdata.q))
          (DSA.readPriv w1 k._dsa_cdata)).2 alg).feed mp)
        = P.DSA_verify
            (DSA._truncate_digest (alg.digest mp.flatten)
              (DSA.BN_num_bits w1.heap k._dsa_cdata.q))
            (P.DSA_sign
              (DSA._truncate_digest (alg.digest m.flatten)
                (DSA.BN_num_bits w1.heap k._dsa_cdata.q))
              (DSA.readPriv w1 k._dsa_cdata)).2
            (DSA.readPub w2 pk._dsa_cdata) := by
      unfold DSA.verifyProviderResult DSA._truncate_digest_for_dsa
      rw [hpk3, hsig3, hdig3]
      show P.DSA_verify
          (DSA._truncate_digest (alg.digest mp.flatten)
            (DSA.BN_num_bits w2.heap pk._dsa_cdata.q))
          (P.DSA_sign
            (DSA._truncate_digest (alg.digest m.flatten)
              (DSA.BN_num_bits w1.heap k._dsa_cdata.q))
            (DSA.readPriv w1 k._dsa_cdata)).2
          (DSA.readPub w2 pk._dsa_cdata) = _
      rw [htrord]
    have hres := hc5
      (DSA._truncate_digest (alg.digest m.flatten)
        (DSA.BN_num_bits w1.heap k._dsa_cdata.q))
      (DSA._truncate_digest (alg.digest mp.flatten)
        (DSA.BN_num_bits w1.heap k._dsa_cdata.q))
      (Ne.symm hdiff)
    have herr := hc6 _ _ hres
    rw [DSA.verify_snd, hver3, if_neg hres, if_neg herr,
      if_neg (fun hc => hc.2 (hc7 _ _ hc.1))]

/-- Counterexample to C2 as stated: a valid small DSA key pair, a
provider meeting its documented contract, and two distinct messages
whose digests coincide after truncation to the 4-bit order q = 11. The
signature produced for the first message verifies successfully against
the second, instead of raising `InvalidSignature`. -/
theorem sign_verify_roundtrip_counterexample :
    DSA.GeneratedKeyInvariants (DSA.readPriv DSA.testWorld DSA.testPriv._dsa_cdata) ∧
    DSA.readPub DSA.testWorld DSA.testPub._dsa_cdata
      = DSA.pubPart (DSA.readPriv DSA.testWorld DSA.testPriv._dsa_cdata) ∧
    DSA.SignVerifyContract DSA.testProvider
      (DSA.readPriv DSA.testWorld DSA.testPriv._dsa_cdata)
      (DSA.readPub DSA.testWorld DSA.testPub._dsa_cdata) ∧
    ([[5]] : List DSA.Bytes) ≠ [[5, 9]] ∧
    (((DSA.testPriv.signer DSA.testAlg).feed [[5]]).finalize DSA.testProvider
        DSA.testWorld).2 = DSA.SignOutcome.ok [DSA.encodeBytes [5]] ∧
    (((DSA.testPub.verifier [DSA.encodeBytes [5]] DSA.testAlg).feed [[5, 9]]).verify
        DSA.testProvider DSA.testWorld).2 = DSA.VerifyOutcome.ok :=
  ⟨by decide, by decide, DSA.testProvider_contract _ _, by decide, by decide, by decide⟩

/-- Witness for the amended C2: at the concrete provider, key pair and
messages [[5]] and [[7]] (whose truncated digests differ) the theorem
applies. -/
theorem sign_verify_roundtrip_witness :
    (DSA.readPub DSA.testWorld DSA.testPub._dsa_cdata
        = DSA.pubPart (DSA.readPriv DSA.testWorld DSA.testPriv._dsa_cdata) ∧
      DSA.SignVerifyContract DSA.testProvider
        (DSA.readPriv DSA.testWorld DSA.testPriv._dsa_cdata)
        (DSA.readPub DSA.testWorld DSA.testPub._dsa_cdata)) ∧
    (∃ s : DSA.Bytes,
      (((DSA.testPriv.signer DSA.testAlg).feed [[5]]).finalize DSA.testProvider
          DSA.testWorld).2 = DSA.SignOutcome.ok s ∧
      (((DSA.testPub.verifier s DSA.testAlg).feed [[5]]).verify DSA.testProvider
          DSA.testWorld).2 = DSA.VerifyOutcome.ok ∧
      (DSA._truncate_digest (DSA.testAlg.digest ([[7]] : List DSA.Bytes).flatten)
            (DSA.BN_num_bits DSA.testWorld.heap DSA.testPub._dsa_cdata.q)
          ≠ DSA._truncate_digest (DSA.testAlg.digest ([[5]] : List DSA.Bytes).flatten)
            (DSA.BN_num_bits DSA.testWorld.heap DSA.testPub._dsa_cdata.q) →
        (((DSA.testPub.verifier s DSA.testAlg).feed [[7]]).verify DSA.testProvider
            DSA.testWorld).2 = DSA.VerifyOutcome.invalidSignature)) :=
  ⟨⟨by decide, DSA.testProvider_contract _ _⟩,
    sign_verify_roundtrip DSA.testProvider DSA.testAlg DSA.testWorld DSA.testWorld
      DSA.testPriv DSA.testPub [[5]] [[7]] (by decide) (DSA.testProvider_contract _ _)⟩
